import Mathlib

/-!
Verification development for the note-state reconciliation core of
obsidian-tmdb-cover.  The definitions below are a shallow embedding of
src/obsidian_tmdb_cover/updater.py, cli.py, fetcher.py, content_builder.py
and tui.py.  Python strings are modelled as lists of Unicode code points
(one Char per code point, matching Python str indexing), Python dicts with
insertion order as association lists, and fallible external collaborators
(the TMDB API, the YAML parser, the interactive picker) as explicit
function parameters.
-/

namespace ObsidianTmdb

/-- Python strings, modelled as lists of Unicode code points. -/
abbrev Str := List Char

/-- ASCII whitespace removed by Python str.strip / rstrip / lstrip
(space, tab, newline, carriage return, vertical tab, form feed). -/
def isPySpace (c : Char) : Bool :=
  c = ' ' || c = '\t' || c = '\n' || c = '\r' || c = '\x0b' || c = '\x0c'

/-- Python str.lstrip(): drop leading whitespace. -/
def pyLstrip : Str → Str
  | [] => []
  | c :: cs => if isPySpace c then pyLstrip cs else c :: cs

/-- Python str.rstrip(): drop trailing whitespace. -/
def pyRstrip (l : Str) : Str := (pyLstrip l.reverse).reverse

/-- Scalar and sequence YAML values as loaded by yaml.safe_load — the value
shapes this program reads from and writes to frontmatter. -/
inductive YVal where
  | s (v : String)
  | i (v : Int)
  | b (v : Bool)
  | null
  | list (vs : List YVal)

/-- Frontmatter: an insertion-ordered mapping from string keys to values,
modelling the Python dict produced by yaml.safe_load (updater.py:19,43). -/
abbrev FM := List (String × YVal)

/-- Python dict lookup dict.get(k) (returning None when absent). -/
def fmGet (fm : FM) (k : String) : Option YVal :=
  match fm with
  | [] => none
  | (k0, v0) :: rest => if k0 = k then some v0 else fmGet rest k

/-- The frontmatter opening delimiter "---\n" tested by
content.startswith at updater.py:32. -/
def openDelim : Str := ("---\n").data

/-- The "\n---\n" separator that the regex at updater.py:34 requires
between the frontmatter block and the body. -/
def closeDelim : Str := ("\n---\n").data

/-- The non-greedy search performed by re.match of the pattern
regex ---, (.*?), \n---\n, (.*) with re.DOTALL at updater.py:34-35,
applied to the text after the leading "---\n": locate the first
occurrence of "\n---\n" and return the text before it (group 1, the
frontmatter block) and after it (group 2, the body), or none when no
occurrence exists (no closing delimiter). -/
def scanClose : Str → Option (Str × Str)
  | [] => none
  | c :: cs =>
    if (c :: cs).take closeDelim.length = closeDelim then
      some ([], (c :: cs).drop closeDelim.length)
    else
      match scanClose cs with
      | some (a, b) => some (c :: a, b)
      | none => none

/-- The in-memory note model: parsed frontmatter plus raw body text
(updater.py:19-20). -/
structure ParsedNote where
  frontmatter : FM
  body : Str

/-- ObsidianNoteUpdater._parse_content (updater.py:29-51).  yamlLoad models
yaml.safe_load applied to the frontmatter block: none models a raised
yaml.YAMLError (caught at updater.py:44), some fm a successful parse with
the `or {}` None-to-empty-dict step folded in. -/
def parseContent (yamlLoad : Str → Option FM) (content : Str) : ParsedNote :=
  if content.take 4 = openDelim then
    match scanClose (content.drop 4) with
    | some (fmStr, rest) =>
      { frontmatter := (yamlLoad fmStr).getD [], body := rest }
    | none => { frontmatter := [], body := content }
  else { frontmatter := [], body := content }

theorem scanClose_eq_append :
    ∀ {l a b : Str}, scanClose l = some (a, b) → l = a ++ closeDelim ++ b := by
  intro l
  induction l with
  | nil => intro a b h; simp [scanClose] at h
  | cons c cs ih =>
    intro a b h
    rw [scanClose] at h
    by_cases htake : (c :: cs).take closeDelim.length = closeDelim
    · rw [if_pos htake] at h
      obtain ⟨ha, hb⟩ := Prod.mk.injEq .. ▸ Option.some.inj h
      subst ha hb
      simpa [htake] using (List.take_append_drop closeDelim.length (c :: cs)).symm
    · rw [if_neg htake] at h
      cases hscan : scanClose cs with
      | none => rw [hscan] at h; exact absurd h (by simp)
      | some p =>
        obtain ⟨a', b'⟩ := p
        rw [hscan] at h
        obtain ⟨ha, hb⟩ := Prod.mk.injEq .. ▸ Option.some.inj h
        subst ha hb
        simpa using ih hscan

/-- C2: for every input document, splitting never raises (it is a total
function) and loses no bytes: if the document does not start with "---\n",
or starts with it but the closing "\n---\n" delimiter never occurs, the
parsed frontmatter is empty and the body is the entire original text; if
the delimited block exists but YAML parsing fails, the frontmatter is
empty while the body is exactly the text after the closing delimiter, and
the original document is byte-for-byte the concatenation of the opening
delimiter, the frontmatter block, the closing delimiter and the body. -/
theorem frontmatter_split_safe (yamlLoad : Str → Option FM) (content : Str) :
    ((content.take 4 ≠ openDelim ∨ scanClose (content.drop 4) = none) →
      parseContent yamlLoad content = { frontmatter := [], body := content }) ∧
    (∀ fmStr rest, content.take 4 = openDelim →
      scanClose (content.drop 4) = some (fmStr, rest) →
      yamlLoad fmStr = none →
      parseContent yamlLoad content = { frontmatter := [], body := rest } ∧
        content = openDelim ++ fmStr ++ closeDelim ++ rest) := by
  constructor
  · rintro (h | h)
    · simp [parseContent, h]
    · by_cases ht : content.take 4 = openDelim <;> simp [parseContent, ht, h]
  · intro fmStr rest ht hscan hyaml
    refine ⟨by simp [parseContent, ht, hscan, hyaml], ?_⟩
    have hsplit := (List.take_append_drop 4 content).symm
    rw [ht] at hsplit
    rw [scanClose_eq_append hscan] at hsplit
    simpa [List.append_assoc] using hsplit

/-- A yaml.safe_load model that always fails. -/
def yamlNone : Str → Option FM := fun _ => none

/-- Witness for C2: the theorem applied at concrete documents. -/
theorem frontmatter_split_safe_witness :
    parseContent yamlNone (("---\nt: 1\n---\nbody").data) =
      { frontmatter := [], body := ("body").data } ∧
    parseContent yamlNone (("plain text").data) =
      { frontmatter := [], body := ("plain text").data } := by
  constructor
  · exact ((frontmatter_split_safe yamlNone (("---\nt: 1\n---\nbody").data)).2
      (("t: 1").data) (("body").data) (by decide) (by decide) rfl).1
  · exact (frontmatter_split_safe yamlNone (("plain text").data)).1
      (Or.inl (by decide))

/-! ## Need detector (cli.py _determine_processing_needs, updater.py getters) -/

/-- Python truthiness of a YAML value. -/
def truthy : YVal → Bool
  | .s v => v != ("")
  | .i v => v != 0
  | .b v => v
  | .null => false
  | .list vs => !vs.isEmpty

/-- Python truthiness of dict.get's result (None when the key is absent). -/
def truthyOpt : Option YVal → Bool
  | none => false
  | some v => truthy v

/-- Python str.startswith, on code points. -/
def pyStartsWith (s pre : String) : Bool := s.data.take pre.data.length = pre.data

/-- A hexadecimal digit as matched by the character class 0-9a-fA-F. -/
def isHexDigit (c : Char) : Bool :=
  ('0' ≤ c && c ≤ '9') || ('a' ≤ c && c ≤ 'f') || ('A' ≤ c && c ≤ 'F')

/-- ObsidianNoteUpdater._is_html_color_code (updater.py:23-27): re.match of
hash-followed-by-six-hex-digits-then-dollar; the isinstance check makes
every non-string value fail, and the dollar anchor of re.match also
accepts one trailing newline (Python re semantics without MULTILINE). -/
def isHtmlColorCode : YVal → Bool
  | .s v =>
    match v.data with
    | '#' :: rest =>
      (rest.length = 6 && rest.all isHexDigit) ||
      (rest.length = 7 && (rest.take 6).all isHexDigit && rest.getLast? = some '\n')
    | _ => false
  | _ => false

/-- _is_html_color_code applied to a dict.get result (None fails the
isinstance check). -/
def isColorOpt : Option YVal → Bool
  | none => false
  | some v => isHtmlColorCode v

/-- The isinstance-str-and-startswith-http test at updater.py:77. -/
def startsHttpVal : YVal → Bool
  | .s u => pyStartsWith u ("http")
  | _ => false

/-- startsHttpVal on a dict.get result. -/
def startsHttpOpt : Option YVal → Bool
  | none => false
  | some v => startsHttpVal v

/-- ObsidianNoteUpdater.has_external_cover (updater.py:70-77). -/
def hasExternalCover (fm : FM) : Bool :=
  let cover := fmGet fm ("cover")
  if !truthyOpt cover || isColorOpt cover then false
  else startsHttpOpt cover

/-- ObsidianNoteUpdater.get_existing_cover_url (updater.py:79-83); under
has_external_cover the stored value is necessarily a string. -/
def getExistingCoverUrl (fm : FM) : Option String :=
  if hasExternalCover fm then
    match fmGet fm ("cover") with
    | some (.s v) => some v
    | _ => none
  else none

/-- ObsidianNoteUpdater.get_tmdb_id (updater.py:157-162): the stored id
when it is truthy and isinstance int.  Python bools are ints: True passes
the test and equals 1. -/
def getTmdbId (fm : FM) : Option Int :=
  match fmGet fm ("tmdb_id") with
  | some (.i v) => if v != 0 then some v else none
  | some (.b true) => some 1
  | _ => none

/-- ObsidianNoteUpdater.get_tmdb_type (updater.py:164-169). -/
def getTmdbType (fm : FM) : Option String :=
  match fmGet fm ("tmdb_type") with
  | some (.s v) => if v = ("movie") || v = ("tv") then some v else none
  | _ => none

/-- needs_cover from _determine_processing_needs (cli.py:21-26). -/
def needsCover (fm : FM) : Bool :=
  let existingCover := fmGet fm ("cover")
  !truthyOpt existingCover || isColorOpt existingCover || hasExternalCover fm

/-- Python iteration over the tags value (cli.py:30-35): a list yields its
elements, a string yields its one-character substrings, anything else
(int, bool, None) raises TypeError, modelled as none; the default [] for
an absent key comes from dict.get at cli.py:30. -/
def iterElems : Option YVal → Option (List YVal)
  | none => some []
  | some (.list vs) => some vs
  | some (.s v) => some (v.data.map fun c => .s (String.mk [c]))
  | some _ => none

/-- The genre-tag test at cli.py:31-35: a string tag starting with
movie/ or tv/ (non-string elements are dropped by the isinstance filter). -/
def isGenreTag : YVal → Bool
  | .s v => pyStartsWith v ("movie/") || pyStartsWith v ("tv/")
  | _ => false

/-- needs_metadata from _determine_processing_needs (cli.py:28-36); none
models the TypeError Python raises when the tags value is not iterable. -/
def needsMetadata (fm : FM) : Option Bool :=
  match iterElems (fmGet fm ("tags")) with
  | none => none
  | some tags => some (!truthyOpt (fmGet fm ("runtime")) || !tags.any isGenreTag)

/-- needs_tmdb_id from _determine_processing_needs (cli.py:38-41). -/
def needsTmdbId (fm : FM) : Bool :=
  (getTmdbId fm).isNone || (getTmdbType fm).isNone

/-! ## C5 -/

/-- The needs_cover condition exactly as C5 states it: the cover field is
absent, or matches the six-hex-digit pattern, or is an absolute URL
(written from the claim: a string carrying an explicit http or https
scheme). -/
def claimNeedsCover (fm : FM) : Bool :=
  match fmGet fm ("cover") with
  | none => true
  | some v =>
    isHtmlColorCode v ||
    (match v with
     | .s u => pyStartsWith u ("http://") || pyStartsWith u ("https://")
     | _ => false)

/-- Counterexample to C5 as stated: for the frontmatter with cover set to
the empty string, the code's needs_cover is true (Python truthiness), but
the field is present, matches no placeholder pattern and is no URL. -/
theorem needs_cover_claim_counterexample :
    needsCover [(("cover"), .s (""))] = true ∧
    claimNeedsCover [(("cover"), .s (""))] = false := by
  constructor <;> rfl

/-- C5 amended: needs_cover is true iff the cover value is absent or falsy
(null, False, 0, empty string or empty list), or matches the #RRGGBB
pattern, or is a string starting with "http". -/
def amendedNeedsCover (fm : FM) : Bool :=
  match fmGet fm ("cover") with
  | none => true
  | some v => !truthy v || isHtmlColorCode v || startsHttpVal v

/-- C5 (amended): the derived needs_cover flag agrees with the amended
classification on every frontmatter, and the four concrete examples of
the claim evaluate as stated. -/
theorem needs_cover_amended :
    (∀ fm, needsCover fm = amendedNeedsCover fm) ∧
    needsCover [] = true ∧
    needsCover [(("cover"), .s ("#1A2B3C"))] = true ∧
    needsCover [(("cover"), .s ("https://x/y.jpg"))] = true ∧
    needsCover [(("cover"), .s ("attachments/a.jpg"))] = false := by
  refine ⟨?_, rfl, rfl, rfl, rfl⟩
  intro fm
  unfold needsCover amendedNeedsCover hasExternalCover
  cases h : fmGet fm ("cover") with
  | none => simp [truthyOpt, isColorOpt, startsHttpOpt]
  | some v =>
    by_cases hT : truthy v <;> by_cases hC : isHtmlColorCode v <;>
      simp [truthyOpt, isColorOpt, startsHttpOpt, hT, hC]

/-! ## C6 -/

/-- The needs_metadata condition exactly as C6 states it: no runtime
field, or no tag in the tags list with a movie/ or series/ prefix. -/
def claimNeedsMetadata (fm : FM) : Bool :=
  (fmGet fm ("runtime")).isNone ||
  !(match fmGet fm ("tags") with
    | some (.list vs) => vs.any fun t =>
        match t with
        | .s v => pyStartsWith v ("movie/") || pyStartsWith v ("series/")
        | _ => false
    | _ => false)

/-- Counterexample to C6 as stated: with runtime 100 and the tag
series/Drama the claim says needs_metadata is false, but the code tests
for the prefixes movie/ and tv/, so it computes true. -/
theorem needs_metadata_claim_counterexample :
    needsMetadata [(("runtime"), .i 100), (("tags"), .list [.s ("series/Drama")])] =
      some true ∧
    claimNeedsMetadata [(("runtime"), .i 100), (("tags"), .list [.s ("series/Drama")])] =
      false := by
  constructor <;> rfl

/-- C6 amended: needs_metadata is true iff the runtime value is absent or
falsy, or no string tag in the tags list starts with movie/ or tv/; when
the tags value is not a list (absent, or a string, whose one-character
elements can never carry a six-character prefix) the flag is always true,
and a non-iterable tags value (int, bool, null) raises instead of
producing a flag. -/
def amendedNeedsMetadata (fm : FM) : Option Bool :=
  match fmGet fm ("tags") with
  | some (.i _) => none
  | some (.b _) => none
  | some .null => none
  | some (.list vs) =>
    some (!truthyOpt (fmGet fm ("runtime")) || !vs.any isGenreTag)
  | some (.s _) => some true
  | none => some true

theorem isGenreTag_singleton (c : Char) : isGenreTag (.s (String.mk [c])) = false := by
  have h6 : ("movie/").data = ['m', 'o', 'v', 'i', 'e', '/'] := rfl
  have h3 : ("tv/").data = ['t', 'v', '/'] := rfl
  simp [isGenreTag, pyStartsWith, h6, h3]

theorem any_isGenreTag_chars (cs : List Char) :
    (cs.map fun c => YVal.s (String.mk [c])).any isGenreTag = false := by
  induction cs with
  | nil => rfl
  | cons c cs ih =>
    simp only [List.map_cons, List.any_cons, ih, isGenreTag_singleton, Bool.or_false]

/-- C6 (amended): the derived needs_metadata flag agrees with the amended
classification on every frontmatter, and the concrete examples of the
claim evaluate as amended (tv/Action in place of series/Action). -/
theorem needs_metadata_amended :
    (∀ fm, needsMetadata fm = amendedNeedsMetadata fm) ∧
    needsMetadata [] = some true ∧
    needsMetadata [(("runtime"), .i 100), (("tags"), .list [.s ("other")])] = some true ∧
    needsMetadata [(("runtime"), .i 100), (("tags"), .list [.s ("movie/Action")])] =
      some false := by
  refine ⟨?_, rfl, rfl, rfl⟩
  intro fm
  unfold needsMetadata amendedNeedsMetadata
  cases h : fmGet fm ("tags") with
  | none => simp [iterElems]
  | some v =>
    cases v with
    | s u =>
      simp only [iterElems, Option.some.injEq]
      rw [any_isGenreTag_chars]
      simp
    | i v => simp [iterElems]
    | b v => simp [iterElems]
    | null => simp [iterElems]
    | list vs => simp [iterElems]

/-! ## C7 -/

/-- The needs_identifier condition exactly as C7 states it: tmdb_id absent
or not an integer, or tmdb_type absent or not one of the two recognized
type strings. -/
def claimNeedsTmdbId (fm : FM) : Bool :=
  (match fmGet fm ("tmdb_id") with
   | some (.i _) => false
   | _ => true) ||
  (match fmGet fm ("tmdb_type") with
   | some (.s v) => !(v = ("movie") || v = ("tv"))
   | _ => true)

/-- Counterexample to C7 as stated: tmdb_id 0 is a stored integer and
tmdb_type movie is recognized, so the claim says the flag is false, but
get_tmdb_id discards the falsy integer 0 and the code computes true. -/
theorem needs_tmdb_id_claim_counterexample :
    needsTmdbId [(("tmdb_id"), .i 0), (("tmdb_type"), .s ("movie"))] = true ∧
    claimNeedsTmdbId [(("tmdb_id"), .i 0), (("tmdb_type"), .s ("movie"))] = false := by
  constructor <;> rfl

/-- C7 amended: the flag is true iff tmdb_id is absent, not an integer, or
a falsy integer (0, or False — Python bools are ints, True counting as the
id 1), or tmdb_type is absent or not exactly movie or tv. -/
def amendedNeedsTmdbId (fm : FM) : Bool :=
  (match fmGet fm ("tmdb_id") with
   | some (.i v) => v == 0
   | some (.b w) => !w
   | _ => true) ||
  (match fmGet fm ("tmdb_type") with
   | some (.s v) => !(v = ("movie") || v = ("tv"))
   | _ => true)

/-- C7 (amended): the derived needs_identifier flag agrees with the
amended classification on every frontmatter, and is false exactly when a
truthy integer id and a recognized type string are stored. -/
theorem getTmdbId_isNone_eq (fm : FM) :
    (getTmdbId fm).isNone =
      (match fmGet fm ("tmdb_id") with
       | some (.i v) => v == 0
       | some (.b w) => !w
       | _ => true) := by
  unfold getTmdbId
  cases h : fmGet fm ("tmdb_id") with
  | none => rfl
  | some v =>
    cases v with
    | i n => by_cases hn : n = 0 <;> simp [hn]
    | b w => cases w <;> rfl
    | s u => rfl
    | null => rfl
    | list l => rfl

theorem getTmdbType_isNone_eq (fm : FM) :
    (getTmdbType fm).isNone =
      (match fmGet fm ("tmdb_type") with
       | some (.s v) => !(v = ("movie") || v = ("tv"))
       | _ => true) := by
  unfold getTmdbType
  cases h : fmGet fm ("tmdb_type") with
  | none => rfl
  | some v =>
    cases v with
    | s u => by_cases h1 : u = ("movie") <;> by_cases h2 : u = ("tv") <;> simp [h1, h2]
    | i n => rfl
    | b w => rfl
    | null => rfl
    | list l => rfl

theorem needs_tmdb_id_amended :
    (∀ fm, needsTmdbId fm = amendedNeedsTmdbId fm) ∧
    needsTmdbId [(("tmdb_id"), .i 603), (("tmdb_type"), .s ("movie"))] = false := by
  refine ⟨?_, rfl⟩
  intro fm
  unfold needsTmdbId amendedNeedsTmdbId
  rw [getTmdbId_isNone_eq, getTmdbType_isNone_eq]

/-! ## C4: tag merge in update_metadata -/

/-- Python dict assignment d[k] = v: replace the first binding in place,
or append a new binding at the end (insertion order preserved). -/
def fmSet : FM → String → YVal → FM
  | [], k, v => [(k, v)]
  | (k0, v0) :: rest, k, v =>
    if k0 = k then (k, v) :: rest else (k0, v0) :: fmSet rest k v

/-- The metadata dict assembled by the fetcher and consumed by
update_metadata; a key being present in the dict is modelled by some. -/
structure Metadata where
  runtime : Option Int := none
  total_episodes : Option Int := none
  genre_tags : Option (List String) := none
  tmdb_id : Option Int := none
  tmdb_type : Option String := none

/-- Lines 140-142 of updater.py: dict.get("tags", []) with any non-list
value replaced by the empty list. -/
def existingTagsVal (fm : FM) : List YVal :=
  match fmGet fm ("tags") with
  | some (.list vs) => vs
  | _ => []

/-- Extraction of an all-string tags list; none models the TypeError that
Python's list.sort raises when existing non-string tags are compared with
the fetcher's string genre tags. -/
def asStringTags : List YVal → Option (List String)
  | [] => some []
  | .s v :: rest => (asStringTags rest).map fun l => v :: l
  | _ => none

/-- Python sorted() on distinct strings: insertion sort by the code-point
lexicographic order (extensionally equal to list.sort on a
duplicate-free list). -/
def sortTags (l : List String) : List String := List.insertionSort (· ≤ ·) l

/-- list(set(existing + new)) followed by .sort() (updater.py:145-146):
deduplicate the concatenation, then sort ascending; Python's arbitrary
set iteration order is irrelevant because of the final sort. -/
def mergeTags (existing newTags : List String) : List String :=
  sortTags ((existing ++ newTags).dedup)

/-- One conditional frontmatter assignment of an integer field (the
pattern of updater.py:133-137 and 149-150). -/
def setIfSomeInt (fm : FM) (k : String) : Option Int → FM
  | some n => fmSet fm k (.i n)
  | none => fm

/-- One conditional frontmatter assignment of a string field
(updater.py:152-153). -/
def setIfSomeStr (fm : FM) (k : String) : Option String → FM
  | some s => fmSet fm k (.s s)
  | none => fm

/-- The genre_tags, tmdb_id and tmdb_type steps of update_metadata
(updater.py:139-153), applied after the runtime and total_episodes steps:
the genre_tags branch merges the new tags into the existing ones.  The
result is none when list.sort would raise (mixed-type tags). -/
def updateMetadataTail (fm2 : FM) (md : Metadata) : Option FM :=
  match md.genre_tags with
  | none =>
    some (setIfSomeStr (setIfSomeInt fm2 ("tmdb_id") md.tmdb_id)
      ("tmdb_type") md.tmdb_type)
  | some newTags =>
    match asStringTags (existingTagsVal fm2) with
    | none => none
    | some existing =>
      some (setIfSomeStr (setIfSomeInt
        (fmSet fm2 ("tags") (.list ((mergeTags existing newTags).map YVal.s)))
        ("tmdb_id") md.tmdb_id)
        ("tmdb_type") md.tmdb_type)

/-- ObsidianNoteUpdater.update_metadata (updater.py:131-155), up to the
final _save_file call: apply each key present in the metadata dict, in
source order (runtime, total_episodes, genre_tags, tmdb_id, tmdb_type). -/
def updateMetadata (fm : FM) (md : Metadata) : Option FM :=
  updateMetadataTail
    (setIfSomeInt (setIfSomeInt fm ("runtime") md.runtime)
      ("total_episodes") md.total_episodes) md

theorem fmGet_fmSet_self (fm : FM) (k : String) (v : YVal) :
    fmGet (fmSet fm k v) k = some v := by
  induction fm with
  | nil => simp [fmSet, fmGet]
  | cons p rest ih =>
    obtain ⟨k0, v0⟩ := p
    by_cases h : k0 = k <;> simp [fmSet, fmGet, h, ih]

theorem fmGet_fmSet_ne (fm : FM) (k k' : String) (v : YVal) (h : k' ≠ k) :
    fmGet (fmSet fm k' v) k = fmGet fm k := by
  induction fm with
  | nil => simp [fmSet, fmGet, h]
  | cons p rest ih =>
    obtain ⟨k0, v0⟩ := p
    by_cases h0 : k0 = k'
    · subst h0; simp [fmSet, fmGet, h]
    · simp [fmSet, fmGet, h0, ih]

theorem fmSet_of_get_eq (fm : FM) (k : String) (v : YVal)
    (h : fmGet fm k = some v) : fmSet fm k v = fm := by
  induction fm with
  | nil => simp [fmGet] at h
  | cons p rest ih =>
    obtain ⟨k0, v0⟩ := p
    by_cases h0 : k0 = k
    · subst h0
      simp [fmGet] at h
      simp [fmSet, h]
    · simp [fmGet, h0] at h
      simp [fmSet, h0, ih h]

theorem asStringTags_map_s (l : List String) :
    asStringTags (l.map YVal.s) = some l := by
  induction l with
  | nil => rfl
  | cons x xs ih => simp [asStringTags, ih]

theorem mergeTags_perm (e n : List String) :
    List.Perm (mergeTags e n) ((e ++ n).dedup) :=
  List.perm_insertionSort _ _

theorem mergeTags_mem (e n : List String) (x : String) :
    x ∈ mergeTags e n ↔ x ∈ e ∨ x ∈ n := by
  rw [(mergeTags_perm e n).mem_iff, List.mem_dedup, List.mem_append]

theorem mergeTags_nodup (e n : List String) : (mergeTags e n).Nodup :=
  ((mergeTags_perm e n).nodup_iff).mpr (List.nodup_dedup _)

theorem mergeTags_sorted_le (e n : List String) :
    (mergeTags e n).Sorted (· ≤ ·) :=
  List.sorted_insertionSort _ _

theorem mergeTags_sorted_lt (e n : List String) :
    (mergeTags e n).Sorted (· < ·) := by
  have hle := mergeTags_sorted_le e n
  have hnd := mergeTags_nodup e n
  exact (List.pairwise_and_iff.mpr ⟨hle, hnd⟩).imp
    fun h => lt_of_le_of_ne h.1 h.2

theorem mergeTags_idem (e n : List String) :
    mergeTags (mergeTags e n) n = mergeTags e n := by
  have hsub : ∀ x ∈ n, x ∈ mergeTags e n :=
    fun x hx => (mergeTags_mem e n x).mpr (Or.inr hx)
  have hperm : List.Perm ((mergeTags e n ++ n).dedup) (mergeTags e n) := by
    rw [List.perm_ext_iff_of_nodup (List.nodup_dedup _) (mergeTags_nodup e n)]
    intro a
    rw [List.mem_dedup, List.mem_append]
    exact ⟨fun h => h.elim id (hsub a), Or.inl⟩
  exact List.eq_of_perm_of_sorted
    ((List.perm_insertionSort _ _).trans hperm)
    (mergeTags_sorted_le _ _) (mergeTags_sorted_le _ _)

theorem existingTagsVal_fmSet_ne (fm : FM) (k : String) (v : YVal)
    (h : k ≠ ("tags")) : existingTagsVal (fmSet fm k v) = existingTagsVal fm := by
  unfold existingTagsVal
  rw [fmGet_fmSet_ne fm ("tags") k v h]

theorem existingTagsVal_setIfSomeInt (fm : FM) (k : String) (o : Option Int)
    (h : k ≠ ("tags")) :
    existingTagsVal (setIfSomeInt fm k o) = existingTagsVal fm := by
  cases o with
  | none => rfl
  | some n => exact existingTagsVal_fmSet_ne fm k (.i n) h

theorem setIfSomeInt_stable (fm : FM) (k : String) (o : Option Int)
    (h : ∀ n, o = some n → fmGet fm k = some (.i n)) :
    setIfSomeInt fm k o = fm := by
  cases o with
  | none => rfl
  | some n => exact fmSet_of_get_eq fm k (.i n) (h n rfl)

theorem setIfSomeStr_stable (fm : FM) (k : String) (o : Option String)
    (h : ∀ s, o = some s → fmGet fm k = some (.s s)) :
    setIfSomeStr fm k o = fm := by
  cases o with
  | none => rfl
  | some s => exact fmSet_of_get_eq fm k (.s s) (h s rfl)

theorem fmGet_setIfSomeInt_ne (fm : FM) (k k' : String) (o : Option Int)
    (h : k' ≠ k) : fmGet (setIfSomeInt fm k' o) k = fmGet fm k := by
  cases o with
  | none => rfl
  | some n => exact fmGet_fmSet_ne fm k k' (.i n) h

theorem fmGet_setIfSomeStr_ne (fm : FM) (k k' : String) (o : Option String)
    (h : k' ≠ k) : fmGet (setIfSomeStr fm k' o) k = fmGet fm k := by
  cases o with
  | none => rfl
  | some s => exact fmGet_fmSet_ne fm k k' (.s s) h

theorem fmGet_setIfSomeInt_self (fm : FM) (k : String) (n : Int) :
    fmGet (setIfSomeInt fm k (some n)) k = some (.i n) :=
  fmGet_fmSet_self fm k (.i n)

theorem fmGet_setIfSomeStr_self (fm : FM) (k : String) (s : String) :
    fmGet (setIfSomeStr fm k (some s)) k = some (.s s) :=
  fmGet_fmSet_self fm k (.s s)

/-- C4: for every frontmatter whose tags value extracts to a list of
strings and every list of new genre tags, update_metadata replaces the
tags field in full with the deduplicated, lexically ascending sorted
union of the existing and the new tags, and applying the very same update
a second time returns the note state (hence the final tag set) unchanged. -/
theorem update_metadata_tag_merge (fm : FM) (md : Metadata)
    (newTags existing : List String)
    (hg : md.genre_tags = some newTags)
    (hex : asStringTags (existingTagsVal fm) = some existing) :
    (∀ x, x ∈ mergeTags existing newTags ↔ x ∈ existing ∨ x ∈ newTags) ∧
    (mergeTags existing newTags).Sorted (· < ·) ∧
    ∃ fm1, updateMetadata fm md = some fm1 ∧
      fmGet fm1 ("tags") =
        some (.list ((mergeTags existing newTags).map YVal.s)) ∧
      updateMetadata fm1 md = some fm1 := by
  refine ⟨mergeTags_mem existing newTags, mergeTags_sorted_lt existing newTags, ?_⟩
  set merged := mergeTags existing newTags with hmg
  set fm2 := setIfSomeInt (setIfSomeInt fm ("runtime") md.runtime)
    ("total_episodes") md.total_episodes with hfm2
  have htags2 : existingTagsVal fm2 = existingTagsVal fm := by
    rw [hfm2, existingTagsVal_setIfSomeInt _ _ _ (by decide),
      existingTagsVal_setIfSomeInt _ _ _ (by decide)]
  set fm3 := fmSet fm2 ("tags") (.list (merged.map YVal.s)) with hfm3
  set fm1 := setIfSomeStr (setIfSomeInt fm3 ("tmdb_id") md.tmdb_id)
    ("tmdb_type") md.tmdb_type with hfm1
  have hrun : updateMetadata fm md = some fm1 := by
    unfold updateMetadata updateMetadataTail
    rw [← hfm2]
    simp only [hg, htags2, hex, ← hfm3, ← hfm1]
  have hget1 : fmGet fm1 ("tags") = some (.list (merged.map YVal.s)) := by
    rw [hfm1, fmGet_setIfSomeStr_ne _ _ _ _ (by decide),
      fmGet_setIfSomeInt_ne _ _ _ _ (by decide), hfm3, fmGet_fmSet_self]
  have hgetRun : ∀ n, md.runtime = some n →
      fmGet fm1 ("runtime") = some (.i n) := by
    intro n hn
    rw [hfm1, fmGet_setIfSomeStr_ne _ _ _ _ (by decide),
      fmGet_setIfSomeInt_ne _ _ _ _ (by decide), hfm3,
      fmGet_fmSet_ne _ _ _ _ (by decide), hfm2,
      fmGet_setIfSomeInt_ne _ _ _ _ (by decide), hn, fmGet_setIfSomeInt_self]
  have hgetTot : ∀ n, md.total_episodes = some n →
      fmGet fm1 ("total_episodes") = some (.i n) := by
    intro n hn
    rw [hfm1, fmGet_setIfSomeStr_ne _ _ _ _ (by decide),
      fmGet_setIfSomeInt_ne _ _ _ _ (by decide), hfm3,
      fmGet_fmSet_ne _ _ _ _ (by decide), hfm2, hn, fmGet_setIfSomeInt_self]
  have hgetId : ∀ n, md.tmdb_id = some n →
      fmGet fm1 ("tmdb_id") = some (.i n) := by
    intro n hn
    rw [hfm1, fmGet_setIfSomeStr_ne _ _ _ _ (by decide), hn,
      fmGet_setIfSomeInt_self]
  have hgetTy : ∀ s, md.tmdb_type = some s →
      fmGet fm1 ("tmdb_type") = some (.s s) := by
    intro s hs
    rw [hfm1, hs, fmGet_setIfSomeStr_self]
  have htags1 : existingTagsVal fm1 = merged.map YVal.s := by
    unfold existingTagsVal
    rw [hget1]
  have h2 : updateMetadata fm1 md = some fm1 := by
    unfold updateMetadata updateMetadataTail
    rw [setIfSomeInt_stable fm1 _ _ hgetRun, setIfSomeInt_stable fm1 _ _ hgetTot]
    simp only [hg, htags1, asStringTags_map_s]
    rw [hmg, mergeTags_idem, ← hmg, fmSet_of_get_eq fm1 _ _ hget1,
      setIfSomeInt_stable fm1 _ _ hgetId, setIfSomeStr_stable fm1 _ _ hgetTy]
  exact ⟨fm1, hrun, hget1, h2⟩

/-- A note frontmatter shaped like the fixture of tests/test_metadata.py. -/
def fmC4 : FM :=
  [(("title"), .s ("Test Movie")), (("tags"), .list [.s ("existing-tag")])]

/-- The metadata dict of tests/test_metadata.py:45-50. -/
def mdC4 : Metadata :=
  { runtime := some 150,
    genre_tags := some [("movie/Comedy"), ("movie/Drama")],
    tmdb_id := some 12345,
    tmdb_type := some ("movie") }

/-- Witness for C4: the theorem applied at the test fixture. -/
theorem update_metadata_tag_merge_witness :
    (("movie/Drama") ∈ mergeTags [("existing-tag")]
      [("movie/Comedy"), ("movie/Drama")]) ∧
    (mergeTags [("existing-tag")] [("movie/Comedy"), ("movie/Drama")]).Sorted
      (· < ·) :=
  ⟨((update_metadata_tag_merge fmC4 mdC4
      [("movie/Comedy"), ("movie/Drama")] [("existing-tag")] rfl rfl).1
      ("movie/Drama")).mpr (Or.inr (by decide)),
    (update_metadata_tag_merge fmC4 mdC4
      [("movie/Comedy"), ("movie/Drama")] [("existing-tag")] rfl rfl).2.1⟩

/-! ## C3: body content injection between TMDB markers -/

/-- The literal start sentinel line (updater.py:177). -/
def startMarker : Str := ("<!-- TMDB_DATA_START -->").data

/-- The literal end sentinel line (updater.py:178). -/
def endMarker : Str := ("<!-- TMDB_DATA_END -->").data

/-- Python str.find: the index of the first occurrence of the needle, or
none where Python returns -1. -/
def strFind (needle : Str) : Str → Option Nat
  | [] => if needle = [] then some 0 else none
  | c :: cs =>
    if (c :: cs).take needle.length = needle then some 0
    else (strFind needle cs).map (· + 1)

/-- The needle occurs in s at position j. -/
def occursAt (m s : Str) (j : Nat) : Prop := (s.drop j).take m.length = m

instance (m s : Str) (j : Nat) : Decidable (occursAt m s j) := by
  unfold occursAt; infer_instance

/-- has_tmdb_content_markers (updater.py:171-173): the Python
substring-containment test start_marker in body. -/
def hasTmdbContentMarkers (body : Str) : Bool := (strFind startMarker body).isSome

/-- inject_tmdb_markers (updater.py:207-225), up to the _save_file call. -/
def injectTmdbMarkers (body content : Str) : Str :=
  let stripped := pyRstrip body
  if stripped ≠ [] then
    stripped ++ ("\n\n").data ++ startMarker ++ ("\n").data ++ content
      ++ ("\n").data ++ endMarker ++ ("\n").data
  else
    startMarker ++ ("\n").data ++ content ++ ("\n").data ++ endMarker
      ++ ("\n").data

/-- update_body_content (updater.py:175-205), up to the _save_file call:
splice the new content between the existing markers, preserving the
right-stripped text before the start marker and the left-stripped text
after the end marker, or fall back to inject_tmdb_markers when the
markers are absent or malformed. -/
def updateBodyContent (body content : Str) : Str :=
  if hasTmdbContentMarkers body then
    match strFind startMarker body, strFind endMarker body with
    | some startIdx, some endIdx =>
      if startIdx < endIdx then
        let before := pyRstrip (body.take startIdx)
        let after := pyLstrip (body.drop (endIdx + endMarker.length))
        let newBody := before ++ ("\n\n").data ++ startMarker ++ ("\n").data
          ++ content ++ ("\n").data ++ endMarker
        if after ≠ [] then newBody ++ ("\n").data ++ after else newBody
      else injectTmdbMarkers body content
    | _, _ => injectTmdbMarkers body content
  else injectTmdbMarkers body content

/-- The marker-delimited region around a generated content string. -/
def tmdbRegion (content : Str) : Str :=
  startMarker ++ ("\n").data ++ content ++ ("\n").data ++ endMarker

/-- The trailing text appended after the region by update_body_content:
a newline plus the text when it is nonempty, nothing otherwise. -/
def withTail (after : Str) : Str :=
  if after ≠ [] then ("\n").data ++ after else []

theorem strFind_eq_none_iff (m : Str) :
    ∀ s : Str, strFind m s = none ↔ ∀ j, ¬ occursAt m s j := by
  intro s
  induction s with
  | nil =>
    by_cases hm : m = []
    · subst hm
      simp only [strFind, if_pos rfl]
      constructor
      · intro h; exact absurd h (by simp)
      · intro h; exact absurd (show occursAt [] [] 0 from rfl) (h 0)
    · simp only [strFind, if_neg hm]
      constructor
      · intro _ j hj
        unfold occursAt at hj
        simp only [List.drop_nil, List.take_nil] at hj
        exact hm hj.symm
      · intro _; trivial
  | cons c cs ih =>
    by_cases htake : (c :: cs).take m.length = m
    · simp only [strFind, if_pos htake]
      constructor
      · intro h; exact absurd h (by simp)
      · intro h
        exact absurd (show occursAt m (c :: cs) 0 from htake) (h 0)
    · simp only [strFind, if_neg htake, Option.map_eq_none']
      rw [ih]
      constructor
      · intro h j hj
        cases j with
        | zero => exact htake hj
        | succ j' => exact h j' hj
      · intro h j hj
        exact h (j + 1) hj

theorem strFind_eq_some (m : Str) :
    ∀ (s : Str) (i : Nat), strFind m s = some i →
      occursAt m s i ∧ ∀ j, j < i → ¬ occursAt m s j := by
  intro s
  induction s with
  | nil =>
    intro i h
    by_cases hm : m = []
    · subst hm
      have h0 : i = 0 := by simpa [strFind, eq_comm] using h
      subst h0
      exact ⟨rfl, fun j hj => absurd hj (Nat.not_lt_zero j)⟩
    · simp [strFind, if_neg hm] at h
  | cons c cs ih =>
    intro i h
    by_cases htake : (c :: cs).take m.length = m
    · simp only [strFind, if_pos htake, Option.some.injEq] at h
      subst h
      exact ⟨htake, fun j hj => absurd hj (Nat.not_lt_zero j)⟩
    · simp only [strFind, if_neg htake, Option.map_eq_some'] at h
      obtain ⟨i', hi', rfl⟩ := h
      obtain ⟨hocc, hmin⟩ := ih i' hi'
      refine ⟨hocc, ?_⟩
      intro j hj
      cases j with
      | zero => exact htake
      | succ j' => exact hmin j' (by omega)

theorem strFind_self (m r : Str) : strFind m (m ++ r) = some 0 := by
  cases hm : m with
  | nil =>
    cases r with
    | nil => rfl
    | cons c cs => simp [strFind]
  | cons c cs =>
    have htake : ((c :: cs) ++ r).take (c :: cs).length = c :: cs :=
      List.take_left (c :: cs) r
    rw [show (c :: cs) ++ r = c :: (cs ++ r) from rfl] at htake
    rw [show c :: cs ++ r = c :: (cs ++ r) from rfl, strFind, htake, if_pos rfl]

theorem occursAt_length (m s : Str) (j : Nat) (hm : m ≠ [])
    (h : occursAt m s j) : j + m.length ≤ s.length := by
  unfold occursAt at h
  have hlen := congrArg List.length h
  rw [List.length_take, List.length_drop] at hlen
  by_cases hj : j ≤ s.length
  · omega
  · exfalso
    rw [List.drop_of_length_le (by omega), List.take_nil] at h
    exact hm h.symm

theorem occursAt_append_left (m p w : Str) (j : Nat) (hm : m ≠ [])
    (h : occursAt m p j) : occursAt m (p ++ w) j := by
  have hlen := occursAt_length m p j hm h
  unfold occursAt at h ⊢
  rw [List.drop_append_eq_append_drop, Nat.sub_eq_zero_of_le (by omega),
    List.drop_zero, List.take_append_eq_append_take, List.length_drop,
    Nat.sub_eq_zero_of_le (by omega), List.take_zero, List.append_nil]
  exact h

theorem occursAt_of_take (m s : Str) (t j : Nat) (hm : m ≠ [])
    (h : occursAt m (s.take t) j) : occursAt m s j ∧ j + m.length ≤ t := by
  have hlen := occursAt_length m (s.take t) j hm h
  rw [List.length_take] at hlen
  have h2 : occursAt m s j := by
    have := occursAt_append_left m (s.take t) (s.drop t) j hm h
    rwa [List.take_append_drop] at this
  exact ⟨h2, by omega⟩

theorem strFind_shift (m a b : Str)
    (hclean : ∀ j, j < a.length → ¬ occursAt m (a ++ b) j) :
    strFind m (a ++ b) = (strFind m b).map (· + a.length) := by
  induction a with
  | nil =>
    simp only [List.nil_append, List.length_nil]
    cases strFind m b <;> simp
  | cons c cs ih =>
    have hne : ¬ ((c :: (cs ++ b)).take m.length = m) := by
      intro hh
      exact hclean 0 (by simp) hh
    rw [show (c :: cs) ++ b = c :: (cs ++ b) from rfl, strFind, if_neg hne]
    rw [ih (fun j hj hocc => hclean (j + 1) (by simp; omega) hocc)]
    cases strFind m b with
    | none => rfl
    | some k =>
      simp only [Option.map_some', Option.some.injEq, List.length_cons]
      omega

theorem clean_append_nl (m x w b : Str) (hm0 : m ≠ []) (hmnl : '\n' ∉ m)
    (hx : strFind m x = none) (hw : ∀ ch ∈ w, ch = '\n') (hw0 : w ≠ []) :
    ∀ j, j < x.length + w.length → ¬ occursAt m ((x ++ w) ++ b) j := by
  intro j hj hocc
  rw [List.append_assoc] at hocc
  unfold occursAt at hocc
  by_cases hjx : j < x.length
  · rw [List.drop_append_eq_append_drop, Nat.sub_eq_zero_of_le (le_of_lt hjx),
      List.drop_zero, List.take_append_eq_append_take] at hocc
    by_cases hcase : m.length ≤ x.length - j
    · have hz : m.length - (x.drop j).length = 0 := by
        rw [List.length_drop]; omega
      rw [hz, List.take_zero, List.append_nil] at hocc
      exact (strFind_eq_none_iff m x).mp hx j hocc
    · have hxl : (x.drop j).length ≤ m.length := by rw [List.length_drop]; omega
      rw [List.take_of_length_le hxl] at hocc
      have hk : 1 ≤ m.length - (x.drop j).length := by rw [List.length_drop]; omega
      obtain ⟨cw, w', rfl⟩ : ∃ cw w', w = cw :: w' := by
        cases w with
        | nil => exact absurd rfl hw0
        | cons a as => exact ⟨a, as, rfl⟩
      have hmem : cw ∈ m := by
        rw [← hocc]
        refine List.mem_append_right _ ?_
        rw [show (cw :: w') ++ b = cw :: (w' ++ b) from rfl]
        cases hk' : m.length - (x.drop j).length with
        | zero => omega
        | succ k =>
          rw [List.take_succ_cons]
          exact List.mem_cons_self _ _
      exact hmnl ((hw cw (List.mem_cons_self _ _)) ▸ hmem)
  · have hjw : j - x.length < w.length := by omega
    rw [List.drop_append_eq_append_drop, List.drop_of_length_le (by omega),
      List.nil_append, List.drop_append_eq_append_drop,
      Nat.sub_eq_zero_of_le (le_of_lt hjw), List.drop_zero,
      List.take_append_eq_append_take] at hocc
    obtain ⟨cm, m', rfl⟩ : ∃ cm m', m = cm :: m' := by
      cases m with
      | nil => exact absurd rfl hm0
      | cons a as => exact ⟨a, as, rfl⟩
    have hwd : w.drop (j - x.length) ≠ [] := by
      intro hh
      have := congrArg List.length hh
      rw [List.length_drop] at this
      simp at this
      omega
    obtain ⟨cw, w', hwd'⟩ : ∃ cw w', w.drop (j - x.length) = cw :: w' := by
      cases hcw : w.drop (j - x.length) with
      | nil => exact absurd hcw hwd
      | cons a as => exact ⟨a, as, rfl⟩
    rw [hwd', List.length_cons, List.take_succ_cons] at hocc
    have hcm : cm = cw := by
      have := congrArg (fun l => l.head?) hocc
      simpa using this.symm
    have hcww : cw ∈ w := List.mem_of_mem_drop (hwd' ▸ List.mem_cons_self _ _)
    have hnl : cm = '\n' := hcm.trans (hw cw hcww)
    exact hmnl (hnl ▸ List.mem_cons_self _ _)

theorem strFind_nl_junction (m x w b : Str) (hm0 : m ≠ []) (hmnl : '\n' ∉ m)
    (hx : strFind m x = none) (hw : ∀ ch ∈ w, ch = '\n') (hw0 : w ≠ []) :
    strFind m (x ++ (w ++ b)) = (strFind m b).map (· + (x.length + w.length)) := by
  have h := strFind_shift m (x ++ w) b (by
    intro j hj
    exact clean_append_nl m x w b hm0 hmnl hx hw hw0 j
      (by simpa [List.length_append] using hj))
  simpa [List.append_assoc, List.length_append] using h

theorem strFind_nil_of_ne (m : Str) (hm0 : m ≠ []) : strFind m [] = none := by
  rw [strFind, if_neg hm0]

theorem strFind_nl_pad_none (m x w : Str) (hm0 : m ≠ []) (hmnl : '\n' ∉ m)
    (hx : strFind m x = none) (hw : ∀ ch ∈ w, ch = '\n') (hw0 : w ≠ []) :
    strFind m (x ++ w) = none := by
  have h := strFind_nl_junction m x w [] hm0 hmnl hx hw hw0
  rw [List.append_nil, strFind_nil_of_ne m hm0] at h
  simpa using h

theorem startMarker_ne_nil : startMarker ≠ [] := by decide

theorem endMarker_ne_nil : endMarker ≠ [] := by decide

theorem nl_not_mem_startMarker : '\n' ∉ startMarker := by decide

theorem nl_not_mem_endMarker : '\n' ∉ endMarker := by decide

theorem no_endMarker_in_startMarker : strFind endMarker startMarker = none := by
  decide

theorem pyLstrip_idem (l : Str) : pyLstrip (pyLstrip l) = pyLstrip l := by
  induction l with
  | nil => rfl
  | cons c cs ih =>
    by_cases h : isPySpace c
    · simp [pyLstrip, h, ih]
    · simp [pyLstrip, h]

theorem pyLstrip_append_ws (w y : Str) (hw : ∀ ch ∈ w, isPySpace ch = true) :
    pyLstrip (w ++ y) = pyLstrip y := by
  induction w with
  | nil => rfl
  | cons c cs ih =>
    have hc : isPySpace c = true := hw c (List.mem_cons_self _ _)
    simp [pyLstrip, hc, ih fun ch hch => hw ch (List.mem_cons_of_mem _ hch)]

theorem pyLstrip_decomp (l : Str) :
    ∃ w, l = w ++ pyLstrip l ∧ ∀ ch ∈ w, isPySpace ch = true := by
  induction l with
  | nil => exact ⟨[], rfl, by simp⟩
  | cons c cs ih =>
    by_cases h : isPySpace c
    · obtain ⟨w, hw1, hw2⟩ := ih
      refine ⟨c :: w, ?_, ?_⟩
      · simp only [pyLstrip, h, if_true, List.cons_append]
        exact congrArg (c :: ·) hw1
      · intro ch hch
        rcases List.mem_cons.mp hch with hch | hch
        · exact hch ▸ h
        · exact hw2 ch hch
    · exact ⟨[], by simp [pyLstrip, h], by simp⟩

theorem pyRstrip_idem (l : Str) : pyRstrip (pyRstrip l) = pyRstrip l := by
  unfold pyRstrip
  rw [List.reverse_reverse, pyLstrip_idem]

theorem pyRstrip_append_ws (x w : Str) (hw : ∀ ch ∈ w, isPySpace ch = true) :
    pyRstrip (x ++ w) = pyRstrip x := by
  unfold pyRstrip
  rw [List.reverse_append, pyLstrip_append_ws]
  intro ch hch
  exact hw ch (List.mem_reverse.mp hch)

theorem pyRstrip_decomp (x : Str) :
    ∃ w, x = pyRstrip x ++ w ∧ ∀ ch ∈ w, isPySpace ch = true := by
  obtain ⟨w, hw1, hw2⟩ := pyLstrip_decomp x.reverse
  refine ⟨w.reverse, ?_, ?_⟩
  · conv_lhs => rw [← List.reverse_reverse x, hw1]
    rw [List.reverse_append]
    rfl
  · intro ch hch
    exact hw2 ch (List.mem_reverse.mp hch)

theorem strFind_none_prefix (m p q : Str) (hm : m ≠ [])
    (h : strFind m (p ++ q) = none) : strFind m p = none := by
  rw [strFind_eq_none_iff] at h ⊢
  intro j hj
  exact h j (occursAt_append_left m p q j hm hj)

theorem strFind_none_pyRstrip (m x : Str) (hm : m ≠ [])
    (h : strFind m x = none) : strFind m (pyRstrip x) = none := by
  obtain ⟨w, hw1, _⟩ := pyRstrip_decomp x
  exact strFind_none_prefix m (pyRstrip x) w hm (hw1 ▸ h)

theorem strFind_none_take_of_min (m s : Str) (i t : Nat) (hm : m ≠ [])
    (hmin : ∀ j, j < i → ¬ occursAt m s j) (ht : t ≤ i) :
    strFind m (s.take t) = none := by
  rw [strFind_eq_none_iff]
  intro j hj
  obtain ⟨hocc, hle⟩ := occursAt_of_take m s t j hm hj
  have hpos : 0 < m.length := List.length_pos.mpr hm
  exact hmin j (by omega) hocc

theorem strFind_S_canonical (pre c tail : Str)
    (hpreS : strFind startMarker pre = none) :
    strFind startMarker (pre ++ (("\n\n").data ++ (tmdbRegion c ++ tail))) =
      some (pre.length + 2) := by
  rw [strFind_nl_junction startMarker pre (("\n\n").data) (tmdbRegion c ++ tail)
    startMarker_ne_nil nl_not_mem_startMarker hpreS (by decide) (by decide)]
  rw [show tmdbRegion c ++ tail =
      startMarker ++ (("\n").data ++ (c ++ (("\n").data ++ (endMarker ++ tail))))
    by simp [tmdbRegion, List.append_assoc]]
  rw [strFind_self]
  simp only [Option.map_some', Option.some.injEq, List.length_cons,
    List.length_nil]
  omega

theorem strFind_E_canonical (pre c tail : Str)
    (hpreE : strFind endMarker pre = none)
    (hcE : strFind endMarker c = none) :
    strFind endMarker (pre ++ (("\n\n").data ++ (tmdbRegion c ++ tail))) =
      some (pre.length + 2 + (startMarker.length + 1) + (c.length + 1)) := by
  rw [strFind_nl_junction endMarker pre (("\n\n").data) (tmdbRegion c ++ tail)
    endMarker_ne_nil nl_not_mem_endMarker hpreE (by decide) (by decide)]
  rw [show tmdbRegion c ++ tail =
      startMarker ++ (("\n").data ++ (c ++ (("\n").data ++ (endMarker ++ tail))))
    by simp [tmdbRegion, List.append_assoc]]
  rw [strFind_nl_junction endMarker startMarker (("\n").data) _
    endMarker_ne_nil nl_not_mem_endMarker no_endMarker_in_startMarker
    (by decide) (by decide)]
  rw [strFind_nl_junction endMarker c (("\n").data) _
    endMarker_ne_nil nl_not_mem_endMarker hcE (by decide) (by decide)]
  rw [strFind_self]
  simp only [Option.map_some', Option.some.injEq, List.length_cons,
    List.length_nil]
  omega

theorem updateBody_shape (pre c tail : Str)
    (hpreS : strFind startMarker pre = none)
    (hpreE : strFind endMarker pre = none)
    (hcE : strFind endMarker c = none) :
    updateBodyContent (pre ++ (("\n\n").data ++ (tmdbRegion c ++ tail))) c =
      pyRstrip pre ++ (("\n\n").data ++
        (tmdbRegion c ++ withTail (pyLstrip tail))) := by
  have hS := strFind_S_canonical pre c tail hpreS
  have hE := strFind_E_canonical pre c tail hpreE hcE
  have htake : (pre ++ (("\n\n").data ++ (tmdbRegion c ++ tail))).take
      (pre.length + 2) = pre ++ ("\n\n").data := by
    rw [← List.append_assoc]
    exact List.take_left' (by
      simp only [List.length_append, List.length_cons, List.length_nil])
  have hdrop : (pre ++ (("\n\n").data ++ (tmdbRegion c ++ tail))).drop
      (pre.length + 2 + (startMarker.length + 1) + (c.length + 1)
        + endMarker.length) = tail := by
    rw [show pre ++ (("\n\n").data ++ (tmdbRegion c ++ tail)) =
        (pre ++ (("\n\n").data ++ tmdbRegion c)) ++ tail
      by simp [List.append_assoc]]
    exact List.drop_left' (by
      simp only [List.length_append, tmdbRegion, List.length_cons,
        List.length_nil]
      omega)
  unfold updateBodyContent hasTmdbContentMarkers
  rw [hS, hE]
  simp only [Option.isSome_some, if_true]
  rw [if_pos (by omega : pre.length + 2 <
    pre.length + 2 + (startMarker.length + 1) + (c.length + 1))]
  rw [htake, hdrop]
  rw [pyRstrip_append_ws pre (("\n\n").data) (by decide)]
  by_cases ha : pyLstrip tail = []
  · simp [ha, withTail, tmdbRegion, List.append_assoc]
  · simp [ha, withTail, tmdbRegion, List.append_assoc]

theorem pyLstrip_nl (y : Str) : pyLstrip (("\n").data ++ y) = pyLstrip y := by
  show pyLstrip ('\n' :: y) = pyLstrip y
  simp [pyLstrip, isPySpace]

/-- Counterexample to C3 as stated: on the empty body, the first
application appends the region with a trailing newline, the second one
removes that newline and prefixes a blank line, so twice is not once; and
on a body "hello \n\n" followed by a marker region, the update right-trims
the user text before the start marker (the first start-marker index moves
from 8 to 7), so text outside the region is not byte-identical. -/
theorem update_body_idem_counterexample :
    updateBodyContent (updateBodyContent [] (("x").data)) (("x").data) ≠
      updateBodyContent [] (("x").data) ∧
    strFind startMarker
      (("hello \n\n").data ++ tmdbRegion (("old").data)) = some 8 ∧
    strFind startMarker
      (updateBodyContent (("hello \n\n").data ++ tmdbRegion (("old").data))
        (("x").data)) = some 7 := by
  refine ⟨by decide, by decide, by decide⟩

/-- C3 amended: for marker-free generated content c (c contains neither
sentinel), update_body_content behaves as follows.  If the body contains a
well-formed marker pair (first start-marker occurrence strictly before the
first end-marker occurrence), the result keeps the text before the start
marker up to right-trimming, a blank line, the fresh region, and the text
after the end marker up to left-trimming (preceded by one newline when
nonempty) — and a second application with the same c is byte-identical, so
the operation is idempotent there.  If the body contains neither marker,
the first application appends the region with a trailing newline after the
right-trimmed body; the second application is not the identity: it drops
that trailing newline (and prefixes a blank line when the trimmed body was
empty). -/
theorem update_body_content_amended (body c : Str)
    (hcS : strFind startMarker c = none)
    (hcE : strFind endMarker c = none) :
    (∀ i j, strFind startMarker body = some i →
      strFind endMarker body = some j → i < j →
      updateBodyContent body c =
        pyRstrip (body.take i) ++ (("\n\n").data ++ (tmdbRegion c ++
          withTail (pyLstrip (body.drop (j + endMarker.length))))) ∧
      updateBodyContent (updateBodyContent body c) c =
        updateBodyContent body c) ∧
    (strFind startMarker body = none → strFind endMarker body = none →
      updateBodyContent body c =
        (if pyRstrip body = [] then [] else pyRstrip body ++ ("\n\n").data) ++
          (tmdbRegion c ++ ("\n").data) ∧
      updateBodyContent (updateBodyContent body c) c =
        pyRstrip body ++ (("\n\n").data ++ tmdbRegion c)) := by
  constructor
  · intro i j hSi hEj hij
    have hfb : updateBodyContent body c =
        pyRstrip (body.take i) ++ (("\n\n").data ++ (tmdbRegion c ++
          withTail (pyLstrip (body.drop (j + endMarker.length))))) := by
      unfold updateBodyContent hasTmdbContentMarkers
      rw [hSi, hEj]
      simp only [Option.isSome_some, if_true]
      rw [if_pos hij]
      by_cases ha : pyLstrip (body.drop (j + endMarker.length)) = []
      · simp [ha, withTail, tmdbRegion, List.append_assoc]
      · simp [ha, withTail, tmdbRegion, List.append_assoc]
    refine ⟨hfb, ?_⟩
    have hminS := (strFind_eq_some startMarker body i hSi).2
    have hminE := (strFind_eq_some endMarker body j hEj).2
    have hpre1S : strFind startMarker (pyRstrip (body.take i)) = none :=
      strFind_none_pyRstrip _ _ startMarker_ne_nil
        (strFind_none_take_of_min _ body i i startMarker_ne_nil hminS
          (le_refl i))
    have hpre1E : strFind endMarker (pyRstrip (body.take i)) = none :=
      strFind_none_pyRstrip _ _ endMarker_ne_nil
        (strFind_none_take_of_min _ body j i endMarker_ne_nil hminE
          (le_of_lt hij))
    rw [hfb]
    rw [updateBody_shape _ c _ hpre1S hpre1E hcE]
    rw [pyRstrip_idem]
    have hlw : pyLstrip (withTail (pyLstrip
        (body.drop (j + endMarker.length)))) =
        pyLstrip (body.drop (j + endMarker.length)) := by
      by_cases ha : pyLstrip (body.drop (j + endMarker.length)) = []
      · rw [ha]; rfl
      · rw [withTail, if_pos ha, pyLstrip_nl, pyLstrip_idem]
    rw [hlw]
  · intro hSn hEn
    have hrbS : strFind startMarker (pyRstrip body) = none :=
      strFind_none_pyRstrip _ _ startMarker_ne_nil hSn
    have hrbE : strFind endMarker (pyRstrip body) = none :=
      strFind_none_pyRstrip _ _ endMarker_ne_nil hEn
    have hfb : updateBodyContent body c =
        (if pyRstrip body = [] then [] else
          pyRstrip body ++ ("\n\n").data) ++
          (tmdbRegion c ++ ("\n").data) := by
      unfold updateBodyContent hasTmdbContentMarkers
      rw [hSn]
      simp only [Option.isSome_none, Bool.false_eq_true, if_false]
      unfold injectTmdbMarkers
      by_cases hrb : pyRstrip body = []
      · simp [hrb, tmdbRegion, List.append_assoc]
      · simp [hrb, tmdbRegion, List.append_assoc]
    refine ⟨hfb, ?_⟩
    rw [hfb]
    by_cases hrb : pyRstrip body = []
    · rw [if_pos hrb, hrb]
      simp only [List.nil_append]
      -- second update on the bare region followed by a newline
      have hS2 : strFind startMarker (tmdbRegion c ++ ("\n").data) = some 0 := by
        rw [show tmdbRegion c ++ ("\n").data = startMarker ++ (("\n").data ++
          (c ++ (("\n").data ++ (endMarker ++ ("\n").data))))
          by simp [tmdbRegion, List.append_assoc]]
        exact strFind_self _ _
      have hE2 : strFind endMarker (tmdbRegion c ++ ("\n").data) =
          some (0 + (startMarker.length + 1) + (c.length + 1)) := by
        rw [show tmdbRegion c ++ ("\n").data = startMarker ++ (("\n").data ++
          (c ++ (("\n").data ++ (endMarker ++ ("\n").data))))
          by simp [tmdbRegion, List.append_assoc]]
        rw [strFind_nl_junction endMarker startMarker (("\n").data) _
          endMarker_ne_nil nl_not_mem_endMarker no_endMarker_in_startMarker
          (by decide) (by decide)]
        rw [strFind_nl_junction endMarker c (("\n").data) _
          endMarker_ne_nil nl_not_mem_endMarker hcE (by decide) (by decide)]
        rw [strFind_self]
        simp only [Option.map_some', Option.some.injEq, List.length_cons,
          List.length_nil]
        omega
      have hdrop2 : (tmdbRegion c ++ ("\n").data).drop
          (0 + (startMarker.length + 1) + (c.length + 1)
            + endMarker.length) = ("\n").data := by
        exact List.drop_left' (by
          simp only [tmdbRegion, List.length_append, List.length_cons,
            List.length_nil]
          omega)
      unfold updateBodyContent hasTmdbContentMarkers
      rw [hS2, hE2]
      simp only [Option.isSome_some, if_true]
      rw [if_pos (by omega : 0 <
        0 + (startMarker.length + 1) + (c.length + 1))]
      rw [List.take_zero, hdrop2]
      have hlnl : pyLstrip (("\n").data) = [] := by decide
      rw [hlnl]
      simp [tmdbRegion, List.append_assoc, pyRstrip, pyLstrip]
    · rw [if_neg hrb]
      rw [show (pyRstrip body ++ ("\n\n").data) ++
          (tmdbRegion c ++ ("\n").data) =
          pyRstrip body ++ (("\n\n").data ++
            (tmdbRegion c ++ ("\n").data))
        by simp [List.append_assoc]]
      rw [updateBody_shape _ c _ hrbS hrbE hcE]
      rw [pyRstrip_idem]
      have hlnl : pyLstrip (("\n").data) = [] := by decide
      rw [hlnl]
      simp [withTail]

/-- Witness for C3 (amended): the theorem applied at a concrete body that
already carries a well-formed marker region, showing the update is
idempotent there, and at a marker-free body. -/
theorem update_body_content_amended_witness :
    updateBodyContent (updateBodyContent
      (("user text\n\n").data ++ tmdbRegion (("old").data)) (("new").data))
      (("new").data) =
      updateBodyContent
        (("user text\n\n").data ++ tmdbRegion (("old").data)) (("new").data) ∧
    updateBodyContent (updateBodyContent (("plain body").data) (("new").data))
      (("new").data) =
      pyRstrip (("plain body").data) ++ (("\n\n").data ++
        tmdbRegion (("new").data)) :=
  ⟨((update_body_content_amended
      ((("user text\n\n").data ++ tmdbRegion (("old").data))) (("new").data)
      (by decide) (by decide)).1 11 40 (by decide) (by decide)
      (by decide)).2,
    ((update_body_content_amended (("plain body").data) (("new").data)
      (by decide) (by decide)).2 (by decide) (by decide)).2⟩

/-! ## C1: the stop signal and the per-note error boundary -/

/-- Exceptions that can escape a single note's processing: the
StopProcessing exception raised by the Stop Processing button
(tui.py:12-15 and tui.py:193-194), or any other error. -/
inductive PyExc where
  | stopProcessing
  | otherError

/-- The `except Exception` clause at cli.py:387 catches every exception
whose class derives from Exception; StopProcessing is declared as
`class StopProcessing(Exception)` (tui.py:12), so it is caught too. -/
def caughtByPerNoteBoundary : PyExc → Bool := fun _ => true

/-- The outcome of the try block for one note in main's loop
(cli.py:292-385): the note is counted processed, skipped or failed, or an
exception escapes to the per-note boundary. -/
inductive NoteOutcome where
  | processedNote
  | skippedNote
  | failedNote
  | raised (e : PyExc)

/-- The processed/skipped/failed tally printed by the summary
(cli.py:391-394). -/
structure Tally where
  processed : Nat
  skipped : Nat
  failed : Nat
deriving DecidableEq, Repr

/-- The per-note loop of main (cli.py:289-389): each outcome bumps one
counter; an exception reaching the boundary is caught by
`except Exception` (cli.py:387-389) when its class derives from
Exception, counted as failed, and the loop continues with the next note;
an exception not caught there would abort the loop with the tally
accumulated so far. -/
def mainLoopAcc (t : Tally) : List NoteOutcome → Tally
  | [] => t
  | o :: rest =>
    match o with
    | .processedNote => mainLoopAcc ⟨t.processed + 1, t.skipped, t.failed⟩ rest
    | .skippedNote => mainLoopAcc ⟨t.processed, t.skipped + 1, t.failed⟩ rest
    | .failedNote => mainLoopAcc ⟨t.processed, t.skipped, t.failed + 1⟩ rest
    | .raised e =>
      if caughtByPerNoteBoundary e then
        mainLoopAcc ⟨t.processed, t.skipped, t.failed + 1⟩ rest
      else t

/-- The whole run over a list of notes. -/
def mainLoop (outcomes : List NoteOutcome) : Tally :=
  mainLoopAcc ⟨0, 0, 0⟩ outcomes

/-- C1 (the code evaluated at the failing input): in a two-note run whose
first note raises StopProcessing from the disambiguation step, the
per-note `except Exception` boundary catches the signal, counts that note
as failed, and still processes the second note — the run does not abort
and the stop is counted as a per-note failure, contradicting both the
claim and the StopProcessing docstring (raised when the user wants to
stop processing entirely). -/
theorem stop_signal_counted_as_failure :
    mainLoop [.raised .stopProcessing, .processedNote] = ⟨1, 0, 1⟩ ∧
    caughtByPerNoteBoundary .stopProcessing = true := by
  constructor <;> rfl

/-! ## C10: _save_file serialization format -/

/-- Block-style rendering of one scalar value, as PyYAML emits the value
shapes this program writes (plain scalars; default_flow_style=False). -/
def yamlDumpScalar : YVal → Str
  | .s v => v.data
  | .i v => (toString v).data
  | .b true => ("true").data
  | .b false => ("false").data
  | .null => ("null").data
  | .list _ => []

/-- One key's line or block: scalar entries as key-colon-space-value, list
entries as a key-colon line followed by one dash line per element. -/
def yamlDumpEntry : String × YVal → Str
  | (k, .list vs) =>
    k.data ++ (":\n").data ++
      (vs.foldr (fun v acc => ("- ").data ++ yamlDumpScalar v ++
        ("\n").data ++ acc) [])
  | (k, v) => k.data ++ (": ").data ++ yamlDumpScalar v ++ ("\n").data

/-- yaml.dump with default_flow_style=False and sort_keys=False
(updater.py:231-236), modelled for the value shapes this program writes:
an empty mapping is emitted as the flow token followed by a newline (the
PyYAML behavior), a nonempty mapping as block-style lines in insertion
order. -/
def yamlDump (fm : FM) : Str :=
  match fm with
  | [] => ("{}\n").data
  | _ => fm.foldr (fun e acc => yamlDumpEntry e ++ acc) []

/-- Python str.rstrip with the explicit argument one-newline
(updater.py:239): drop trailing newline characters only. -/
def dropTrailNl : Str → Str
  | [] => []
  | c :: cs => if c = '\n' then dropTrailNl cs else c :: cs

/-- rstrip of newlines from the right. -/
def rstripNl (l : Str) : Str := (dropTrailNl l.reverse).reverse

/-- ObsidianNoteUpdater._save_file (updater.py:227-250): the file content
written back, the f-string of three-dashes-newline, the dumped
frontmatter with its trailing newline stripped, newline-three-dashes-
newline, then the body. -/
def saveFile (fm : FM) (body : Str) : Str :=
  ("---\n").data ++ rstripNl (yamlDump fm) ++ ("\n---\n").data ++ body

theorem scanClose_isSome_of_contains (b : Str) :
    ∀ a : Str, (scanClose (a ++ (closeDelim ++ b))).isSome = true := by
  intro a
  induction a with
  | nil =>
    rw [List.nil_append]
    have htake : (closeDelim ++ b).take closeDelim.length = closeDelim :=
      List.take_left closeDelim b
    rw [show closeDelim ++ b = '\n' :: ((("---\n").data) ++ b) from rfl]
      at htake ⊢
    rw [scanClose, if_pos htake]
    rfl
  | cons c cs ih =>
    rw [show (c :: cs) ++ (closeDelim ++ b) = c :: (cs ++ (closeDelim ++ b))
      from rfl, scanClose]
    by_cases htake : (c :: (cs ++ (closeDelim ++ b))).take closeDelim.length =
        closeDelim
    · rw [if_pos htake]; rfl
    · rw [if_neg htake]
      cases hscan : scanClose (cs ++ (closeDelim ++ b)) with
      | none => rw [hscan] at ih; exact absurd ih (by simp)
      | some p =>
        obtain ⟨p1, p2⟩ := p
        rfl

/-- C10: every save writes the opening delimiter line, the serialized
frontmatter (the empty mapping as the flow-token line), the closing
delimiter line, then the body; consequently the written content always
parses as a frontmatter block, so a document that had no well-formed
frontmatter block (no leading delimiter, or no closing delimiter) can
never round-trip byte-identically through any update's save. -/
theorem save_file_format (fm : FM) (body : Str) :
    saveFile [] body = ("---\n{}\n---\n").data ++ body ∧
    (saveFile fm body).take 4 = openDelim ∧
    ∀ original : Str,
      (original.take 4 ≠ openDelim ∨ scanClose (original.drop 4) = none) →
      saveFile fm body ≠ original := by
  have htake4 : (saveFile fm body).take 4 = openDelim := by
    unfold saveFile
    rw [show ("---\n").data ++ rstripNl (yamlDump fm) ++ ("\n---\n").data
        ++ body = ("---\n").data ++ (rstripNl (yamlDump fm) ++
          (("\n---\n").data ++ body)) by simp [List.append_assoc]]
    exact List.take_left' rfl
  refine ⟨by simp [saveFile, yamlDump, rstripNl, dropTrailNl, openDelim], htake4, ?_⟩
  intro original h heq
  rcases h with h | h
  · exact h (heq ▸ htake4)
  · have hdrop : (saveFile fm body).drop 4 =
        rstripNl (yamlDump fm) ++ (closeDelim ++ body) := by
      unfold saveFile
      rw [show ("---\n").data ++ rstripNl (yamlDump fm) ++ ("\n---\n").data
          ++ body = ("---\n").data ++ (rstripNl (yamlDump fm) ++
            (("\n---\n").data ++ body)) by simp [List.append_assoc]]
      exact List.drop_left' rfl
    have hsome := scanClose_isSome_of_contains body (rstripNl (yamlDump fm))
    rw [← hdrop, heq, h] at hsome
    exact absurd hsome (by simp)

/-- Witness for C10: a plain document with no frontmatter block is never
reproduced by a save. -/
theorem save_file_format_witness :
    saveFile [(("cover"), .s ("x.jpg"))] (("B").data) ≠
      ("no frontmatter here").data :=
  (save_file_format [(("cover"), .s ("x.jpg"))] (("B").data)).2.2
    (("no frontmatter here").data) (Or.inl (by decide))

/-! ## C8: season breakdown ordering (content_builder.py) -/

/-- One element of the seasons array of a TV detail payload, the fields
read by build_season_breakdown with the dict.get defaults of
content_builder.py:203-210 already applied.  vote_average is modelled as
an integer: the source's floats are restricted to integral values (the
Python format one-decimal-float then renders v.0), which leaves the
ordering content of the section untouched. -/
structure Season where
  season_number : Int
  name : Option String
  air_date : String
  vote_average : Int
  overview : String
  episode_count : Int
  poster_path : String
deriving DecidableEq, Repr

/-- The slice of a TV detail payload read by build_season_breakdown
(content_builder.py:192-241): the seasons array in payload order and the
in_production flag. -/
structure TvSeasonsPayload where
  seasons : List Season
  in_production : Bool
deriving DecidableEq, Repr

/-- Python format one-decimal-float for the integral values modelled
here. -/
def fmtFix1 (v : Int) : String := toString v ++ (".0")

/-- Python str slicing s[:n]. -/
def strTake (s : String) (n : Nat) : String := String.mk (s.data.take n)

/-- Python str.strip() on both ends. -/
def pyStripStr (s : String) : String := String.mk (pyLstrip (pyRstrip s.data))

/-- One iteration of the season loop (content_builder.py:202-239):
header with name, year and optional rating, optional poster image,
optional italicized overview, episode count, then the status line —
Currently Airing only for the season that equals seasons[-1] of a show
still in production, Complete otherwise — and the horizontal rule. -/
def seasonBlock (inProduction isLatest : Bool) (season : Season) : String :=
  let name := season.name.getD (("Season ") ++ toString season.season_number)
  let year := if season.air_date ≠ ("") then strTake season.air_date 4
    else ("TBA")
  let header := ("### ") ++ name ++ (" (") ++ year ++ (")") ++
    (if season.vote_average ≠ 0 then
      (" • ⭐ ") ++ fmtFix1 season.vote_average ++ ("/10") else ("")) ++
    ("\n\n")
  let poster := if season.poster_path ≠ ("") then
    ("![") ++ name ++ ("](https://image.tmdb.org/t/p/w300") ++
      season.poster_path ++ (")\n\n") else ("")
  let ov := pyStripStr season.overview
  let ovPart := if ov ≠ ("") then ("_") ++ ov ++ ("_\n\n") else ("")
  let eps := ("**Episodes:** ") ++ toString season.episode_count
  let status := if isLatest && inProduction then
    (" • **Status:** Currently Airing\n\n")
    else (" • **Status:** ✅ Complete\n\n")
  header ++ poster ++ ovPart ++ eps ++ status ++ ("---\n\n")

/-- build_season_breakdown (content_builder.py:192-241): empty string for
an empty seasons array; otherwise the section header followed by one
block per season, iterated in the order of the payload's seasons list
(the for loop at content_builder.py:202), with the final rstrip plus
newline of content_builder.py:241.  The season treated as latest is
seasons[-1] of the payload list. -/
def buildSeasonBreakdown (d : TvSeasonsPayload) : String :=
  match d.seasons with
  | [] => ("")
  | _ =>
    let blocks := d.seasons.map fun season =>
      seasonBlock d.in_production
        (decide (d.seasons.getLast? = some season)) season
    let sect := ("## Seasons\n\n") ++ String.join blocks
    String.mk (pyRstrip sect.data) ++ ("\n")

/-- A season that aired in 2000. -/
def seasonOne : Season :=
  { season_number := 1, name := some ("Season 1"),
    air_date := ("2000-05-01"), vote_average := 0, overview := (""),
    episode_count := 8, poster_path := ("") }

/-- A season that aired in 2001. -/
def seasonTwo : Season :=
  { season_number := 2, name := some ("Season 2"),
    air_date := ("2001-05-01"), vote_average := 0, overview := (""),
    episode_count := 10, poster_path := ("") }

/-- A payload listing the 2001 season before the 2000 season. -/
def tvPayloadPerm : TvSeasonsPayload :=
  { seasons := [seasonTwo, seasonOne], in_production := true }

/-- The same payload in chronological order. -/
def tvPayloadChrono : TvSeasonsPayload :=
  { seasons := [seasonOne, seasonTwo], in_production := true }

/-- C8 (the code evaluated at the failing input): for the payload listing
the 2001 season before the 2000 season, the generated section keeps the
payload order — the Season 2 block starts at index 12, before the
Season 1 block at index 81 — and marks the chronologically first season
Currently Airing because it is last in the payload list; permuting the
input seasons list changes the output, refuting order-independence. -/
theorem season_breakdown_payload_order :
    buildSeasonBreakdown tvPayloadPerm =
      ("## Seasons\n\n### Season 2 (2001)\n\n**Episodes:** 10 • **Status:** ✅ Complete\n\n---\n\n### Season 1 (2000)\n\n**Episodes:** 8 • **Status:** Currently Airing\n\n---\n") ∧
    strFind (("### Season 2").data)
      (buildSeasonBreakdown tvPayloadPerm).data = some 12 ∧
    strFind (("### Season 1").data)
      (buildSeasonBreakdown tvPayloadPerm).data = some 81 ∧
    buildSeasonBreakdown tvPayloadPerm ≠ buildSeasonBreakdown tvPayloadChrono := by
  refine ⟨by decide, by decide, by decide, by decide⟩

/-! ## C9: acquisition branches and a candidate without a poster -/

/-- The fields of one TMDB multi-search result read by this program. -/
structure SearchResult where
  media_type : Option String := none
  id : Option Int := none
  poster_path : Option String := none
deriving DecidableEq, Repr

/-- The fields of a TMDB detail payload read by the metadata and cover
extraction; genres models the id fields of the genres array. -/
structure Detail where
  runtime : Option Int := none
  episode_run_time : Option (List Int) := none
  genres : List Int := []
  poster_path : Option String := none
deriving DecidableEq, Repr

/-- The external TMDB API and the interactive picker, as oracles: detail
lookups by id, the genre-name table per media type, the raw search
response, and the picker's selection. -/
structure FetcherEnv where
  movieDetails : Int → Option Detail
  tvDetails : Int → Option Detail
  genreMap : String → Int → Option String
  rawSearch : String → List SearchResult
  select : String → List SearchResult → Option SearchResult

/-- Python truthiness of an optional string (None and empty are falsy). -/
def truthyStrOpt : Option String → Bool
  | none => false
  | some s => s ≠ ("")

/-- Python truthiness of an optional integer (None and 0 are falsy). -/
def truthyIntOpt : Option Int → Bool
  | none => false
  | some n => n ≠ 0

/-- The filter loop inside search_multi (fetcher.py:52-62): keep results
whose media_type is movie or tv and which carry a truthy poster_path,
breaking once the collected list reaches limit (with limit 0 Python still
appends the first keeper before testing the break). -/
def searchFilter : List SearchResult → Nat → List SearchResult
  | [], _ => []
  | r :: rs, limit =>
    if (r.media_type = some ("movie") || r.media_type = some ("tv")) &&
        truthyStrOpt r.poster_path then
      if limit ≤ 1 then [r] else r :: searchFilter rs (limit - 1)
    else searchFilter rs limit

/-- search_multi (fetcher.py:39-66) on a successful transport response. -/
def searchMulti (env : FetcherEnv) (query : String) (limit : Nat) :
    List SearchResult :=
  searchFilter (env.rawSearch query) limit

/-- The image URL base of fetcher.py:21. -/
def imageBaseUrl : String := ("https://image.tmdb.org/t/p/original")

/-- The details lookup chain repeated in the fetcher methods
(fetcher.py:143-147, 199-203, 246-250, 267-271): movie details for movie,
tv details for tv, None for anything else. -/
def lookupDetails (env : FetcherEnv) (mediaType : String) (mediaId : Int) :
    Option Detail :=
  if mediaType = ("movie") then env.movieDetails mediaId
  else if mediaType = ("tv") then env.tvDetails mediaId
  else none

/-- Python str.strip with the dash argument: drop leading and trailing
hyphens. -/
def dropLeadDash : Str → Str
  | [] => []
  | c :: cs => if c = '-' then dropLeadDash cs else c :: cs

/-- strip of hyphens on both ends. -/
def stripDashes (l : Str) : Str :=
  (dropLeadDash (dropLeadDash l).reverse).reverse

/-- _sanitize_genre_name (fetcher.py:24-32): ampersand to the word and,
hash removed, slash and space to hyphen, then strip hyphens. -/
def sanitizeGenreName (name : String) : String :=
  let repl := name.data.foldr (fun c acc =>
    if c = '&' then 'a' :: 'n' :: 'd' :: acc
    else if c = '#' then acc
    else if c = '/' then '-' :: acc
    else if c = ' ' then '-' :: acc
    else c :: acc) []
  String.mk (stripDashes repl)

/-- The metadata dict assembled from a detail payload by get_metadata and
get_metadata_by_id (fetcher.py:152-192, 208-239): id and type, runtime
(movies: the runtime field when truthy; series: the head of a truthy
episode_run_time list), and the genre tags resolved through the genre
table, sanitized and prefixed with the media type and a slash; ids
missing from the table are silently dropped and the genre_tags key is
only set when the resulting list is nonempty. -/
def metadataOfDetails (env : FetcherEnv) (mediaType : String) (mediaId : Int)
    (details : Detail) : Metadata :=
  let runtime : Option Int :=
    if mediaType = ("movie") then
      match details.runtime with
      | some r => if r ≠ 0 then some r else none
      | none => none
    else if mediaType = ("tv") then
      match details.episode_run_time with
      | some (r :: _) => some r
      | _ => none
    else none
  let genreTags : List String :=
    if details.genres ≠ [] then
      details.genres.filterMap fun gid =>
        (env.genreMap mediaType gid).map fun nm =>
          mediaType ++ ("/") ++ sanitizeGenreName nm
    else []
  { runtime := runtime,
    total_episodes := none,
    genre_tags := if genreTags ≠ [] then some genreTags else none,
    tmdb_id := some mediaId,
    tmdb_type := some mediaType }

/-- get_metadata (fetcher.py:135-192): falsy media_type or id gives the
empty dict; a failed detail lookup gives the empty dict. -/
def getMetadata (env : FetcherEnv) (sr : SearchResult) : Metadata :=
  if !truthyStrOpt sr.media_type || !truthyIntOpt sr.id then {}
  else
    match sr.media_type, sr.id with
    | some mt, some mid =>
      match lookupDetails env mt mid with
      | none => {}
      | some d => metadataOfDetails env mt mid d
    | _, _ => {}

/-- get_metadata_by_id (fetcher.py:194-239). -/
def getMetadataById (env : FetcherEnv) (mediaId : Int) (mediaType : String) :
    Metadata :=
  if !(mediaType = ("movie") || mediaType = ("tv")) then {}
  else
    match lookupDetails env mediaType mediaId with
    | none => {}
    | some d => metadataOfDetails env mediaType mediaId d

/-- get_cover_url_by_id (fetcher.py:241-258). -/
def getCoverUrlById (env : FetcherEnv) (mediaId : Int) (mediaType : String) :
    Option String :=
  if !(mediaType = ("movie") || mediaType = ("tv")) then none
  else
    match lookupDetails env mediaType mediaId with
    | none => none
    | some d =>
      if truthyStrOpt d.poster_path then
        some (imageBaseUrl ++ d.poster_path.getD (""))
      else none

/-- get_cover_and_metadata_by_id (fetcher.py:260-286): the cover URL when
the detail payload carries a truthy poster_path, None otherwise, paired
with the metadata obtained by re-running get_metadata on a synthesized
search-result dict holding only media_type and id. -/
def getCoverAndMetadataById (env : FetcherEnv) (mediaId : Int)
    (mediaType : String) : Option String × Metadata :=
  if !(mediaType = ("movie") || mediaType = ("tv")) then (none, {})
  else
    match lookupDetails env mediaType mediaId with
    | none => (none, {})
    | some d =>
      let coverUrl := if truthyStrOpt d.poster_path then
          some (imageBaseUrl ++ d.poster_path.getD (""))
        else none
      (coverUrl, getMetadata env
        { media_type := some mediaType, id := some mediaId,
          poster_path := none })

/-- The direct-by-id branch of _fetch_required_data (cli.py:63-90). -/
def directBranch (env : FetcherEnv) (fm : FM) (tid : Int) (tty : String)
    (needsCoverB needsMetadataB needsTmdbIdB : Bool) :
    Option String × Metadata :=
  if !needsCoverB && !needsMetadataB && !needsTmdbIdB then (none, {})
  else if needsCoverB && needsMetadataB then
    if hasExternalCover fm then
      (getExistingCoverUrl fm, (getCoverAndMetadataById env tid tty).2)
    else getCoverAndMetadataById env tid tty
  else if needsCoverB then
    ((if hasExternalCover fm then getExistingCoverUrl fm
      else getCoverUrlById env tid tty),
      getMetadataById env tid tty)
  else if needsMetadataB then (none, getMetadataById env tid tty)
  else (none, {})

/-- The search-by-title branch of _fetch_required_data (cli.py:91-156):
up to ten filtered results, auto-selection of a single result, the picker
for several, the poster check at cli.py:132-134 that returns the empty
result, then the cover/metadata assembly. -/
def searchBranch (env : FetcherEnv) (fm : FM) (title : String)
    (needsCoverB needsMetadataB needsTmdbIdB : Bool) :
    Option String × Metadata :=
  let results := searchMulti env title 10
  if results.isEmpty then (none, {})
  else
    let selected : Option SearchResult :=
      if results.length = 1 then results.head?
      else env.select title results
    match selected with
    | none => (none, {})
    | some sel =>
      if !truthyStrOpt sel.poster_path then (none, {})
      else
        let coverUrl := imageBaseUrl ++ sel.poster_path.getD ("")
        let md := getMetadata env sel
        let image :=
          if needsCoverB && needsMetadataB then
            (if hasExternalCover fm then getExistingCoverUrl fm
              else some coverUrl)
          else if needsCoverB then
            (if hasExternalCover fm then getExistingCoverUrl fm
              else some coverUrl)
          else none
        (image, md)

/-- _fetch_required_data (cli.py:46-156): prefer the stored identifier
over a title search unless the force flag is set. -/
def fetchRequiredData (env : FetcherEnv) (fm : FM) (title : String)
    (needsCoverB needsMetadataB needsTmdbIdB force : Bool) :
    Option String × Metadata :=
  if (getTmdbId fm).isSome && (getTmdbType fm).isSome && !force then
    match getTmdbId fm, getTmdbType fm with
    | some tid, some tty =>
      directBranch env fm tid tty needsCoverB needsMetadataB needsTmdbIdB
    | _, _ => (none, {})
  else searchBranch env fm title needsCoverB needsMetadataB needsTmdbIdB

theorem getTmdbId_ne_zero (fm : FM) (t : Int) (h : getTmdbId fm = some t) :
    t ≠ 0 := by
  unfold getTmdbId at h
  cases hv : fmGet fm ("tmdb_id") with
  | none => rw [hv] at h; exact absurd h (by simp)
  | some v =>
    rw [hv] at h
    cases v with
    | i n =>
      by_cases hn : n = 0
      · simp [hn] at h
      · simp [hn] at h
        omega
    | b w =>
      cases w with
      | true => simp at h; omega
      | false => exact absurd h (by simp)
    | s u => exact absurd h (by simp)
    | null => exact absurd h (by simp)
    | list l => exact absurd h (by simp)

theorem getTmdbType_cases (fm : FM) (s : String)
    (h : getTmdbType fm = some s) : s = ("movie") ∨ s = ("tv") := by
  unfold getTmdbType at h
  cases hv : fmGet fm ("tmdb_type") with
  | none => rw [hv] at h; exact absurd h (by simp)
  | some v =>
    rw [hv] at h
    cases v <;> simp at h
    rename_i u
    obtain ⟨h1, h2⟩ := h
    subst h2
    exact h1

theorem mediaType_ok_of_cases (tty : String)
    (htty : tty = ("movie") ∨ tty = ("tv")) :
    (tty = ("movie") || tty = ("tv")) = true := by
  rcases htty with h | h <;> simp [h]

theorem coverAndMeta_snd (env : FetcherEnv) (tid : Int) (tty : String)
    (htty : tty = ("movie") ∨ tty = ("tv")) (htid : tid ≠ 0) :
    (getCoverAndMetadataById env tid tty).2 = getMetadataById env tid tty := by
  have hok := mediaType_ok_of_cases tty htty
  unfold getCoverAndMetadataById getMetadataById
  simp only [hok, Bool.not_true, Bool.false_eq_true, if_false]
  cases hld : lookupDetails env tty tid with
  | none => simp
  | some d =>
    simp only []
    unfold getMetadata
    have h1 : truthyStrOpt (some tty) = true := by
      rcases htty with h | h <;> simp [truthyStrOpt, h]
    have h2 : truthyIntOpt (some tid) = true := by
      simp [truthyIntOpt, htid]
    simp [h1, h2, hld]

theorem coverAndMeta_fst_none (env : FetcherEnv) (tid : Int) (tty : String)
    (d : Detail) (htty : tty = ("movie") ∨ tty = ("tv"))
    (hld : lookupDetails env tty tid = some d)
    (hpos : truthyStrOpt d.poster_path = false) :
    (getCoverAndMetadataById env tid tty).1 = none := by
  have hok := mediaType_ok_of_cases tty htty
  unfold getCoverAndMetadataById
  simp [hok, hld, hpos]

theorem getCoverUrlById_none (env : FetcherEnv) (tid : Int) (tty : String)
    (d : Detail) (htty : tty = ("movie") ∨ tty = ("tv"))
    (hld : lookupDetails env tty tid = some d)
    (hpos : truthyStrOpt d.poster_path = false) :
    getCoverUrlById env tid tty = none := by
  have hok := mediaType_ok_of_cases tty htty
  unfold getCoverUrlById
  simp [hok, hld, hpos]

theorem searchFilter_poster (raw : List SearchResult) :
    ∀ (limit : Nat) (r : SearchResult), r ∈ searchFilter raw limit →
      truthyStrOpt r.poster_path = true := by
  induction raw with
  | nil => intro limit r hr; simp [searchFilter] at hr
  | cons x xs ih =>
    intro limit r hr
    rw [searchFilter] at hr
    by_cases hkeep : ((x.media_type = some ("movie") ||
        x.media_type = some ("tv")) && truthyStrOpt x.poster_path) = true
    · rw [if_pos hkeep] at hr
      have hx : truthyStrOpt x.poster_path = true :=
        ((Bool.and_eq_true _ _).mp hkeep).2
      by_cases hlim : limit ≤ 1
      · rw [if_pos hlim] at hr
        have : r = x := by simpa using hr
        exact this ▸ hx
      · rw [if_neg hlim] at hr
        rcases List.mem_cons.mp hr with h | h
        · exact h ▸ hx
        · exact ih _ r h
    · rw [if_neg hkeep] at hr
      exact ih _ r hr

/-- The note of the C9 counterexample: an externally hosted cover URL and
a stored identifier. -/
def fmC9 : FM :=
  [(("cover"), .s ("http://old/x.jpg")), (("tmdb_id"), .i 42),
    (("tmdb_type"), .s ("movie"))]

/-- The detail payload of movie 42: metadata but no poster. -/
def detailC9 : Detail :=
  { runtime := some 100, episode_run_time := none, genres := [18],
    poster_path := none }

/-- An API oracle whose movie 42 has metadata but no poster. -/
def envC9 : FetcherEnv :=
  { movieDetails := fun i => if i = 42 then some detailC9 else none,
    tvDetails := fun _ => none,
    genreMap := fun mt gid =>
      if mt = ("movie") && gid = 18 then some ("Drama") else none,
    rawSearch := fun _ => [],
    select := fun _ _ => none }

/-- Counterexample to C9 as stated: the resolved candidate (movie 42)
lacks a poster, yet the fetch result's cover deliverable is not null — it
is the externally hosted URL already stored in the note, which the
planner reuses for local download. -/
theorem fetch_missing_poster_counterexample :
    (envC9.movieDetails 42).map (fun d => d.poster_path) = some none ∧
    (fetchRequiredData envC9 fmC9 ("T") true true false false).1 =
      some ("http://old/x.jpg") := by
  constructor <;> decide

/-- C9 amended: in the direct-by-id branch, when the detail payload of the
stored identifier lacks a poster and a cover or metadata is needed, the
metadata extracted from that payload is returned rather than dropped, and
the cover deliverable is null unless a cover is needed and the note
stores an external cover URL, in which case it is that stored URL; in the
search branch the missing-poster situation cannot arise, because every
candidate delivered by search_multi carries a truthy poster_path. -/
theorem fetch_missing_poster_amended :
    (∀ (env : FetcherEnv) (fm : FM) (title : String) (tid : Int)
      (tty : String) (d : Detail) (nc nm ni : Bool),
      getTmdbId fm = some tid → getTmdbType fm = some tty →
      lookupDetails env tty tid = some d →
      truthyStrOpt d.poster_path = false →
      (nc || nm) = true →
      fetchRequiredData env fm title nc nm ni false =
        ((if nc && hasExternalCover fm then getExistingCoverUrl fm
          else none), getMetadataById env tid tty)) ∧
    (∀ (env : FetcherEnv) (title : String) (limit : Nat)
      (r : SearchResult), r ∈ searchMulti env title limit →
      truthyStrOpt r.poster_path = true) := by
  constructor
  · intro env fm title tid tty d nc nm ni h1 h2 hld hpos hneed
    have htid : tid ≠ 0 := getTmdbId_ne_zero fm tid h1
    have htty := getTmdbType_cases fm tty h2
    unfold fetchRequiredData
    rw [h1, h2]
    simp only [Option.isSome_some, Bool.and_self, Bool.not_false,
      Bool.and_true, Bool.true_and, if_true]
    unfold directBranch
    cases nc with
    | false =>
      cases nm with
      | false => simp at hneed
      | true =>
        simp
    | true =>
      cases nm with
      | false =>
        have hcu := getCoverUrlById_none env tid tty d htty hld hpos
        by_cases hext : hasExternalCover fm <;>
          simp [hext, hcu]
      | true =>
        have hsnd := coverAndMeta_snd env tid tty htty htid
        have hfst := coverAndMeta_fst_none env tid tty d htty hld hpos
        by_cases hext : hasExternalCover fm
        · simp [hext, hsnd]
        · simp only [Bool.not_true, Bool.false_and, Bool.false_eq_true,
            if_false, Bool.and_self, if_true, hext]
          rw [show getCoverAndMetadataById env tid tty =
            ((getCoverAndMetadataById env tid tty).1,
              (getCoverAndMetadataById env tid tty).2) from rfl]
          rw [hfst, hsnd]
          simp
  · intro env title limit r hr
    exact searchFilter_poster (env.rawSearch title) limit r hr

/-- A note with a stored identifier and no cover field. -/
def fmC9b : FM := [(("tmdb_id"), .i 42), (("tmdb_type"), .s ("movie"))]

/-- Witness for C9 (amended): the theorem applied at the concrete oracle
whose movie 42 has no poster, for a note without an external cover — the
cover deliverable is null and the metadata of the detail payload is
returned. -/
theorem fetch_missing_poster_amended_witness :
    fetchRequiredData envC9 fmC9b ("T") true true false false =
      (none, getMetadataById envC9 42 ("movie")) := by
  have h := fetch_missing_poster_amended.1 envC9 fmC9b ("T") 42 ("movie")
    detailC9 true true false rfl rfl (by decide) rfl rfl
  simpa using h

end ObsidianTmdb
